import Mathlib

/-!
# Key Transparency gateway and monitor: a shallow embedding

This file embeds, in Lean 4, the parts of the `keytransparency` repository
that its external-interface specification talks about:

* the generated grpc-gateway reverse proxy for the `KeyTransparency`
  service (package `keytransparency_proto`): URL pattern matching,
  path-parameter extraction, request construction, and handler
  registration (`RegisterKeyTransparencyHandlerClient`,
  `RegisterKeyTransparencyHandlerFromEndpoint`);
* the monitor binary `cmd/keytransparency-monitor/main.go`: the retry
  loop around the initial `GetDirectory` call, its backoff parameters,
  and `transportCreds`.

Go library functions the source calls (`strconv.ParseInt` via
`runtime.Int64`, `net.SplitHostPort`, the grpc-gateway pattern-matching
virtual machine) are modelled faithfully from their implementations,
since the gateway's observable behaviour is defined through them.
Machine integers are modelled as `Nat`/`Int` with explicit range checks
mirroring the Go code's own cutoff tests.
-/

namespace KeyTransparency

/-- gRPC status codes used by the embedded code paths
(`google.golang.org/grpc/codes`). -/
inductive Code where
  | ok
  | invalidArgument
  | notFound
  | permissionDenied
  | unavailable
  | deadlineExceeded
  | aborted
  | internal
  | unknown
deriving DecidableEq, Repr

/-- A gRPC status as produced by `status.Errorf(code, format, args...)`:
a machine-readable code together with a human-readable message. -/
structure GrpcStatus where
  code : Code
  msg : String
deriving DecidableEq, Repr

/-- Lookup of a path parameter in the `pathParams map[string]string`
handed to each `request_KeyTransparency_*` function, modelled as an
association list (`val, ok = pathParams[k]`). -/
def lookupParam (k : String) : List (String × String) → Option String
  | [] => none
  | (k', v) :: rest => if k' = k then some v else lookupParam k rest

/-! ## Go `strconv.ParseInt(s, 0, 64)`

`runtime.Int64` in the grpc-gateway runtime is
`strconv.ParseInt(val, 0, 64)`.  The model below follows the Go
standard library implementation (base `0`, i.e. base inferred from the
prefix, with Go 1.13 underscore support) over the characters of the
string; multi-byte UTF-8 characters reject exactly as their leading
byte does in Go, so accept/reject behaviour and values agree. -/

/-- Error classes of Go `strconv`: `ErrSyntax` and `ErrRange`. -/
inductive NumErr where
  | syntaxError
  | outOfRange
deriving DecidableEq, Repr

/-- Go `lower(c) = c | ('x' - 'X')`: set the 0x20 bit. -/
def lowerChar (c : Char) : Nat := c.toNat ||| 0x20

/-- The digit value a character contributes in Go's `ParseUint` loop:
`'0'..'9'` are themselves, letters (after `lower`) are 10..35, anything
else is a syntax error. -/
def digitVal (c : Char) : Option Nat :=
  if 48 ≤ c.toNat ∧ c.toNat ≤ 57 then some (c.toNat - 48)
  else if 97 ≤ lowerChar c ∧ lowerChar c ≤ 122 then some (lowerChar c - 97 + 10)
  else none

/-- Go `maxUint64 = 1<<64 - 1`. -/
def maxUint64 : Nat := 2 ^ 64 - 1

/-- Go `underscoreOK`: underscores may appear only between digits or
between a base prefix and a digit.  `saw` tracks the class of the last
character: `'^'` beginning, `'0'` digit/prefix, `'_'` underscore, `'!'`
other. -/
def underscoreLoop (hex : Bool) : List Char → Char → Bool
  | [], saw => saw ≠ '_'
  | c :: rest, saw =>
    if (48 ≤ c.toNat ∧ c.toNat ≤ 57) ∨ (hex ∧ 97 ≤ lowerChar c ∧ lowerChar c ≤ 102) then
      underscoreLoop hex rest '0'
    else if c = '_' then
      if saw ≠ '0' then false else underscoreLoop hex rest '_'
    else if saw = '_' then false
    else underscoreLoop hex rest '!'

/-- Go `strconv.underscoreOK(s)`. -/
def underscoreOK (s : List Char) : Bool :=
  let s1 := match s with
    | c :: rest => if c = '-' ∨ c = '+' then rest else s
    | [] => s
  match s1 with
  | '0' :: c :: rest =>
    if lowerChar c = 98 ∨ lowerChar c = 111 ∨ lowerChar c = 120 then
      underscoreLoop (lowerChar c = 120) rest '0'
    else underscoreLoop false s1 '^'
  | _ => underscoreLoop false s1 '^'

/-- The digit-accumulation loop of Go `strconv.ParseUint`.  Returns the
accumulated value, whether an underscore was seen, and the error slot.
On a syntax error Go returns `(0, ErrSyntax)` at once; when the
accumulator would overflow it returns `(maxVal, ErrRange)` at once. -/
def parseUintLoop (base cutoff maxVal : Nat) (base0 : Bool) :
    List Char → Nat → Bool → Nat × Bool × Option NumErr
  | [], n, us => (n, us, none)
  | c :: rest, n, us =>
    if c = '_' ∧ base0 then parseUintLoop base cutoff maxVal base0 rest n true
    else
      match digitVal c with
      | none => (0, us, some .syntaxError)
      | some d =>
        if base ≤ d then (0, us, some .syntaxError)
        else if cutoff ≤ n then (maxVal, us, some .outOfRange)
        else
          let n1 := n * base + d
          if maxVal < n1 then (maxVal, us, some .outOfRange)
          else parseUintLoop base cutoff maxVal base0 rest n1 us

/-- Go `strconv.ParseUint(s, 0, 64)` (base inferred from the prefix,
64-bit): returns the value together with the error slot, as the Go
function returns both. -/
def parseUint64Base0 (s0 : List Char) : Nat × Option NumErr :=
  match s0 with
  | [] => (0, some .syntaxError)
  | c0 :: rest0 =>
    let (base, s) :=
      if c0 = '0' then
        match rest0 with
        | [] => (8, ([] : List Char))
        | c :: rest =>
          if rest ≠ [] ∧ lowerChar c = 98 then (2, rest)
          else if rest ≠ [] ∧ lowerChar c = 111 then (8, rest)
          else if rest ≠ [] ∧ lowerChar c = 120 then (16, rest)
          else (8, c :: rest)
      else (10, c0 :: rest0)
    let cutoff := maxUint64 / base + 1
    let (n, us, err) := parseUintLoop base cutoff maxUint64 true s 0 false
    match err with
    | some e => (n, some e)
    | none => if us ∧ ¬ underscoreOK s0 then (0, some .syntaxError) else (n, none)

/-- The body of Go `strconv.ParseInt(s, 0, 64)` after the sign has
been picked off: run `ParseUint` on the unsigned part (a syntax error
propagates; on a range error Go continues with the clamped value and
the cutoff checks below fire) and apply the signed-64-bit cutoff
checks (`cutoff = 1 << 63`). -/
def parseInt64Post (neg : Bool) (u : List Char) : Except NumErr Int :=
  let (un, err) := parseUint64Base0 u
  match err with
  | some .syntaxError => .error .syntaxError
  | _ =>
    let cutoff : Nat := 2 ^ 63
    if ¬ neg ∧ cutoff ≤ un then .error .outOfRange
    else if neg ∧ cutoff < un then .error .outOfRange
    else .ok (if neg then -(un : Int) else (un : Int))

/-- Go `strconv.ParseInt(s, 0, 64)`: pick off a leading sign, then run
the unsigned conversion and range checks. -/
def parseInt64 (s : String) : Except NumErr Int :=
  match s.toList with
  | [] => .error .syntaxError
  | c :: rest =>
    if c = '+' then parseInt64Post false rest
    else if c = '-' then parseInt64Post true rest
    else parseInt64Post false (c :: rest)

/-- Rendering of Go `strconv` errors as they appear inside the
gateway's `status.Errorf` messages. -/
def NumErr.render : NumErr → String
  | .syntaxError => "invalid syntax"
  | .outOfRange => "value out of range"

namespace Runtime

/-- grpc-gateway `runtime.String(val)`: the identity conversion, which
never fails. -/
def string (val : String) : Except String String := .ok val

/-- grpc-gateway `runtime.Int64(val) = strconv.ParseInt(val, 0, 64)`. -/
def int64 (val : String) : Except NumErr Int := parseInt64 val

end Runtime

/-! ## grpc-gateway URL patterns

The generated file builds each route's pattern with
`runtime.MustPattern(runtime.NewPattern(1, ops, pool, verb))`.
`ops` is a flat list of `(code, operand)` pairs for the httprule
virtual machine (`OpNop = 0`, `OpPush = 1`, `OpLitPush = 2`,
`OpPushM = 3`, `OpConcatN = 4`, `OpCapture = 5`); `pool` interns the
literals and variable names; `verb` is the trailing `:verb` suffix.
`patMatch` below models `runtime.Pattern.Match` from the grpc-gateway
runtime: it interprets the ops over the slash-split path components and
produces the path-parameter bindings. -/

/-- A compiled httprule pattern as stored in the generated source:
the flat op list, the string pool, and the verb. -/
structure Pattern where
  ops : List Nat
  pool : List String
  verb : String
deriving DecidableEq, Repr

/-- Pair up the flat op list into `(code, operand)` pairs. -/
def pairOps : List Nat → List (Nat × Nat)
  | a :: b :: rest => (a, b) :: pairOps rest
  | _ => []

/-- The op interpreter of `runtime.Pattern.Match`: `pos` is the cursor
into `comps`, `stack` holds pushed components (top first), `captured`
accumulates `(name, value)` bindings in capture order. -/
def runOps (pool : List String) (comps : List String) :
    List (Nat × Nat) → Nat → List String → List (String × String) →
    Option (List (String × String))
  | [], pos, _, captured =>
    if pos < comps.length then none else some captured
  | (code, x) :: rest, pos, stack, captured =>
    if code = 0 then runOps pool comps rest pos stack captured
    else if code = 1 ∨ code = 2 then
      match comps.get? pos with
      | none => none
      | some c =>
        if code = 2 ∧ ¬ (pool.get? x = some c) then none
        else runOps pool comps rest (pos + 1) (c :: stack) captured
    else if code = 3 then
      runOps pool comps rest comps.length
        (String.intercalate "/" (comps.drop pos) :: stack) captured
    else if code = 4 then
      runOps pool comps rest pos
        (String.intercalate "/" ((stack.take x).reverse) :: stack.drop x) captured
    else if code = 5 then
      match stack with
      | [] => none
      | top :: stackRest =>
        runOps pool comps rest pos stackRest (captured ++ [(pool.getD x "", top)])
    else none

/-- Model of `runtime.Pattern.Match(components, verb)`: fails unless the verb
matches, then interprets the ops; all components must be consumed. -/
def patMatch (p : Pattern) (comps : List String) (verb : String) :
    Option (List (String × String)) :=
  if p.verb = verb then runOps p.pool comps (pairOps p.ops) 0 [] [] else none

/-! The nine patterns of the generated gateway file, verbatim. -/

def pattern_KeyTransparency_GetDomain_0 : Pattern :=
  ⟨[2, 0, 2, 1, 1, 0, 4, 1, 5, 2], ["v1", "domains", "domain_id"], ""⟩

def pattern_KeyTransparency_GetEpoch_0 : Pattern :=
  ⟨[2, 0, 2, 1, 1, 0, 4, 1, 5, 2, 2, 3, 1, 0, 4, 1, 5, 4],
    ["v1", "domains", "domain_id", "epochs", "epoch"], ""⟩

def pattern_KeyTransparency_GetLatestEpoch_0 : Pattern :=
  ⟨[2, 0, 2, 1, 1, 0, 4, 1, 5, 2, 2, 3],
    ["v1", "domains", "domain_id", "epochs"], "latest"⟩

def pattern_KeyTransparency_GetEpochStream_0 : Pattern :=
  ⟨[2, 0, 2, 1, 1, 0, 4, 1, 5, 2, 2, 3],
    ["v1", "domains", "domain_id", "epochs"], "stream"⟩

def pattern_KeyTransparency_ListMutations_0 : Pattern :=
  ⟨[2, 0, 2, 1, 1, 0, 4, 1, 5, 2, 2, 3, 1, 0, 4, 1, 5, 4, 2, 5],
    ["v1", "domains", "domain_id", "epochs", "epoch", "mutations"], ""⟩

def pattern_KeyTransparency_ListMutationsStream_0 : Pattern :=
  ⟨[2, 0, 2, 1, 1, 0, 4, 1, 5, 2, 2, 3, 1, 0, 4, 1, 5, 4, 2, 5],
    ["v1", "domains", "domain_id", "epochs", "epoch", "mutations"], "stream"⟩

def pattern_KeyTransparency_GetEntry_0 : Pattern :=
  ⟨[2, 0, 2, 1, 1, 0, 4, 1, 5, 2, 2, 3, 1, 0, 4, 1, 5, 4, 2, 5, 1, 0, 4, 1, 5, 6],
    ["v1", "domains", "domain_id", "apps", "app_id", "users", "user_id"], ""⟩

def pattern_KeyTransparency_ListEntryHistory_0 : Pattern :=
  ⟨[2, 0, 2, 1, 1, 0, 4, 1, 5, 2, 2, 3, 1, 0, 4, 1, 5, 4, 2, 5, 1, 0, 4, 1, 5, 6, 2, 7],
    ["v1", "domains", "domain_id", "apps", "app_id", "users", "user_id", "history"], ""⟩

def pattern_KeyTransparency_UpdateEntry_0 : Pattern :=
  ⟨[2, 0, 2, 1, 1, 0, 4, 1, 5, 2, 2, 3, 1, 0, 4, 1, 5, 4, 2, 5, 1, 0, 4, 1, 5, 6],
    ["v1", "domains", "domain_id", "apps", "app_id", "users", "user_id"], ""⟩

/-- One `mux.Handle(method, pattern, handler)` registration inside
`RegisterKeyTransparencyHandlerClient`: the client method the handler
forwards to, the HTTP method, and the pattern. -/
structure Route where
  name : String
  method : String
  pat : Pattern
deriving DecidableEq, Repr

/-- The registrations performed by
`RegisterKeyTransparencyHandlerClient`, in source order. -/
def registeredRoutes : List Route :=
  [⟨"GetDomain", "GET", pattern_KeyTransparency_GetDomain_0⟩,
   ⟨"GetEpoch", "GET", pattern_KeyTransparency_GetEpoch_0⟩,
   ⟨"GetLatestEpoch", "GET", pattern_KeyTransparency_GetLatestEpoch_0⟩,
   ⟨"GetEpochStream", "GET", pattern_KeyTransparency_GetEpochStream_0⟩,
   ⟨"ListMutations", "GET", pattern_KeyTransparency_ListMutations_0⟩,
   ⟨"ListMutationsStream", "GET", pattern_KeyTransparency_ListMutationsStream_0⟩,
   ⟨"GetEntry", "GET", pattern_KeyTransparency_GetEntry_0⟩,
   ⟨"ListEntryHistory", "GET", pattern_KeyTransparency_ListEntryHistory_0⟩,
   ⟨"UpdateEntry", "PUT", pattern_KeyTransparency_UpdateEntry_0⟩]

/-! ## Request construction

Each `request_KeyTransparency_*_0` function reads the required path
parameters (in source order), converts them with `runtime.String` /
`runtime.Int64`, populates the query parameters, and only then invokes
the backend client method with the built request.  Every early return
is a `status.Errorf(codes.InvalidArgument, ...)`.  The embeddings below
return `Except GrpcStatus R`: the `ok` case carries exactly the proto
request the source passes to the client, and the source reaches the
client call precisely when the embedding returns `ok`.  The query
string is abstracted as the result of
`runtime.PopulateQueryParameters` (`none` = no error). -/

structure GetDomainRequest where
  domainId : String
deriving DecidableEq, Repr

structure GetEpochRequest where
  domainId : String
  epoch : Int
deriving DecidableEq, Repr

structure GetLatestEpochRequest where
  domainId : String
deriving DecidableEq, Repr

structure ListMutationsRequest where
  domainId : String
  epoch : Int
deriving DecidableEq, Repr

structure GetEntryRequest where
  domainId : String
  appId : String
  userId : String
deriving DecidableEq, Repr

structure ListEntryHistoryRequest where
  domainId : String
  appId : String
  userId : String
deriving DecidableEq, Repr

/-- The decoded request body of `UpdateEntry`; the gateway never
inspects it, it only stores the decoder's output into
`protoReq.EntryUpdate`. -/
structure EntryUpdate where
  blob : String
deriving DecidableEq, Repr

structure UpdateEntryRequest where
  domainId : String
  appId : String
  userId : String
  entryUpdate : EntryUpdate
deriving DecidableEq, Repr

/-- The status `status.Errorf(codes.InvalidArgument, "missing parameter %s", name)`. -/
def missingParam (name : String) : GrpcStatus :=
  ⟨.invalidArgument, "missing parameter " ++ name⟩

/-- The status `status.Errorf(codes.InvalidArgument,
"type mismatch, parameter: %s, error: %v", name, err)`. -/
def typeMismatch (name err : String) : GrpcStatus :=
  ⟨.invalidArgument, "type mismatch, parameter: " ++ name ++ ", error: " ++ err⟩

/-- The source calls `client.<Method>` exactly when the request
function reaches its final statement, i.e. returns `ok`. -/
def callsBackend {α : Type} : Except GrpcStatus α → Bool
  | .ok _ => true
  | .error _ => false

def request_KeyTransparency_GetDomain_0 (pathParams : List (String × String))
    (queryErr : Option String) : Except GrpcStatus GetDomainRequest :=
  match lookupParam "domain_id" pathParams with
  | none => .error (missingParam "domain_id")
  | some val =>
    match Runtime.string val with
    | .error e => .error (typeMismatch "domain_id" e)
    | .ok domainId =>
      match queryErr with
      | some e => .error ⟨.invalidArgument, e⟩
      | none => .ok ⟨domainId⟩

def request_KeyTransparency_GetEpoch_0 (pathParams : List (String × String))
    (queryErr : Option String) : Except GrpcStatus GetEpochRequest :=
  match lookupParam "domain_id" pathParams with
  | none => .error (missingParam "domain_id")
  | some val =>
    match Runtime.string val with
    | .error e => .error (typeMismatch "domain_id" e)
    | .ok domainId =>
      match lookupParam "epoch" pathParams with
      | none => .error (missingParam "epoch")
      | some val2 =>
        match Runtime.int64 val2 with
        | .error e => .error (typeMismatch "epoch" e.render)
        | .ok epoch =>
          match queryErr with
          | some e => .error ⟨.invalidArgument, e⟩
          | none => .ok ⟨domainId, epoch⟩

def request_KeyTransparency_GetLatestEpoch_0 (pathParams : List (String × String))
    (queryErr : Option String) : Except GrpcStatus GetLatestEpochRequest :=
  match lookupParam "domain_id" pathParams with
  | none => .error (missingParam "domain_id")
  | some val =>
    match Runtime.string val with
    | .error e => .error (typeMismatch "domain_id" e)
    | .ok domainId =>
      match queryErr with
      | some e => .error ⟨.invalidArgument, e⟩
      | none => .ok ⟨domainId⟩

/-- The function `request_KeyTransparency_GetEpochStream_0` builds the same
`GetEpochRequest` as `GetEpoch` but from `domain_id` alone. -/
def request_KeyTransparency_GetEpochStream_0 (pathParams : List (String × String))
    (queryErr : Option String) : Except GrpcStatus GetEpochRequest :=
  match lookupParam "domain_id" pathParams with
  | none => .error (missingParam "domain_id")
  | some val =>
    match Runtime.string val with
    | .error e => .error (typeMismatch "domain_id" e)
    | .ok domainId =>
      match queryErr with
      | some e => .error ⟨.invalidArgument, e⟩
      | none => .ok ⟨domainId, 0⟩

def request_KeyTransparency_ListMutations_0 (pathParams : List (String × String))
    (queryErr : Option String) : Except GrpcStatus ListMutationsRequest :=
  match lookupParam "domain_id" pathParams with
  | none => .error (missingParam "domain_id")
  | some val =>
    match Runtime.string val with
    | .error e => .error (typeMismatch "domain_id" e)
    | .ok domainId =>
      match lookupParam "epoch" pathParams with
      | none => .error (missingParam "epoch")
      | some val2 =>
        match Runtime.int64 val2 with
        | .error e => .error (typeMismatch "epoch" e.render)
        | .ok epoch =>
          match queryErr with
          | some e => .error ⟨.invalidArgument, e⟩
          | none => .ok ⟨domainId, epoch⟩

/-- The function `request_KeyTransparency_ListMutationsStream_0` builds the same
`ListMutationsRequest` in the same way before opening the stream. -/
def request_KeyTransparency_ListMutationsStream_0 (pathParams : List (String × String))
    (queryErr : Option String) : Except GrpcStatus ListMutationsRequest :=
  match lookupParam "domain_id" pathParams with
  | none => .error (missingParam "domain_id")
  | some val =>
    match Runtime.string val with
    | .error e => .error (typeMismatch "domain_id" e)
    | .ok domainId =>
      match lookupParam "epoch" pathParams with
      | none => .error (missingParam "epoch")
      | some val2 =>
        match Runtime.int64 val2 with
        | .error e => .error (typeMismatch "epoch" e.render)
        | .ok epoch =>
          match queryErr with
          | some e => .error ⟨.invalidArgument, e⟩
          | none => .ok ⟨domainId, epoch⟩

def request_KeyTransparency_GetEntry_0 (pathParams : List (String × String))
    (queryErr : Option String) : Except GrpcStatus GetEntryRequest :=
  match lookupParam "domain_id" pathParams with
  | none => .error (missingParam "domain_id")
  | some val =>
    match Runtime.string val with
    | .error e => .error (typeMismatch "domain_id" e)
    | .ok domainId =>
      match lookupParam "app_id" pathParams with
      | none => .error (missingParam "app_id")
      | some val2 =>
        match Runtime.string val2 with
        | .error e => .error (typeMismatch "app_id" e)
        | .ok appId =>
          match lookupParam "user_id" pathParams with
          | none => .error (missingParam "user_id")
          | some val3 =>
            match Runtime.string val3 with
            | .error e => .error (typeMismatch "user_id" e)
            | .ok userId =>
              match queryErr with
              | some e => .error ⟨.invalidArgument, e⟩
              | none => .ok ⟨domainId, appId, userId⟩

def request_KeyTransparency_ListEntryHistory_0 (pathParams : List (String × String))
    (queryErr : Option String) : Except GrpcStatus ListEntryHistoryRequest :=
  match lookupParam "domain_id" pathParams with
  | none => .error (missingParam "domain_id")
  | some val =>
    match Runtime.string val with
    | .error e => .error (typeMismatch "domain_id" e)
    | .ok domainId =>
      match lookupParam "app_id" pathParams with
      | none => .error (missingParam "app_id")
      | some val2 =>
        match Runtime.string val2 with
        | .error e => .error (typeMismatch "app_id" e)
        | .ok appId =>
          match lookupParam "user_id" pathParams with
          | none => .error (missingParam "user_id")
          | some val3 =>
            match Runtime.string val3 with
            | .error e => .error (typeMismatch "user_id" e)
            | .ok userId =>
              match queryErr with
              | some e => .error ⟨.invalidArgument, e⟩
              | none => .ok ⟨domainId, appId, userId⟩

/-- The function `request_KeyTransparency_UpdateEntry_0` first decodes the request
body into `protoReq.EntryUpdate`
(`marshaler.NewDecoder(req.Body).Decode(&protoReq.EntryUpdate)`,
modelled by the `body` argument), then reads the three path
parameters. -/
def request_KeyTransparency_UpdateEntry_0 (body : Except String EntryUpdate)
    (pathParams : List (String × String)) (queryErr : Option String) :
    Except GrpcStatus UpdateEntryRequest :=
  match body with
  | .error e => .error ⟨.invalidArgument, e⟩
  | .ok entryUpdate =>
    match lookupParam "domain_id" pathParams with
    | none => .error (missingParam "domain_id")
    | some val =>
      match Runtime.string val with
      | .error e => .error (typeMismatch "domain_id" e)
      | .ok domainId =>
        match lookupParam "app_id" pathParams with
        | none => .error (missingParam "app_id")
        | some val2 =>
          match Runtime.string val2 with
          | .error e => .error (typeMismatch "app_id" e)
          | .ok appId =>
            match lookupParam "user_id" pathParams with
            | none => .error (missingParam "user_id")
            | some val3 =>
              match Runtime.string val3 with
              | .error e => .error (typeMismatch "user_id" e)
              | .ok userId =>
                match queryErr with
                | some e => .error ⟨.invalidArgument, e⟩
                | none => .ok ⟨domainId, appId, userId, entryUpdate⟩

/-! ## `RegisterKeyTransparencyHandlerFromEndpoint`

The wrapper dials `endpoint`, and its `defer` inspects the named return
`err` when the function returns: if registration (or anything after the
successful dial) failed it closes the connection immediately; on
success it instead spawns a goroutine that closes the connection when
`ctx` is done. -/

/-- What the wrapper leaves behind: whether the dialed connection is
still open when the function returns, and whether the ctx-done closer
goroutine was spawned. -/
structure ConnTracker where
  connOpen : Bool
  ctxWatcherInstalled : Bool
deriving DecidableEq, Repr

/-- The wrapper `RegisterKeyTransparencyHandlerFromEndpoint`, over the outcomes of
`grpc.Dial` and of `RegisterKeyTransparencyHandler`. -/
def RegisterKeyTransparencyHandlerFromEndpoint
    (dialResult : Except String Unit) (registerResult : Except String Unit) :
    Except String Unit × ConnTracker :=
  match dialResult with
  | .error e => (.error e, ⟨false, false⟩)
  | .ok _ =>
    let err := registerResult
    match err with
    | .error e => (.error e, ⟨false, false⟩)
    | .ok _ => (.ok (), ⟨true, true⟩)

/-! ## The monitor's startup retry loop

`cmd/keytransparency-monitor/main.go` wraps its initial `GetDirectory`
call in `b.Retry(cctx, f, codes.Unavailable)` with
`b = backoff.Backoff{Min: time.Millisecond, Max: time.Second,
Factor: 1.5}` and `cctx` a one-minute timeout context.  Durations are
in nanoseconds (`time.Millisecond = 10^6`, `time.Second = 10^9`). -/

/-- The struct `internal/backoff.Backoff`: minimum and maximum delay in
nanoseconds and the multiplicative factor. -/
structure Backoff where
  min : Nat
  max : Nat
  factor : Rat
deriving DecidableEq, Repr

/-- The `backoff.Backoff` literal built in the monitor's `main`:
`{Min: time.Millisecond, Max: time.Second, Factor: 1.5}`. -/
def monitorBackoff : Backoff :=
  { min := 1000000, max := 1000000000, factor := 3 / 2 }

/-- Modelled from the spec: `internal/backoff`'s delay schedule is
exponential backoff "base 1 ms, factor 1.5, cap 1 s", i.e. the delay
before retry `i` is `min(Max, Min * Factor^i)` nanoseconds.  The
package `internal/backoff` itself is not among the provided sources. -/
def Backoff.delay (b : Backoff) (i : Nat) : Rat :=
  Min.min (b.max : Rat) ((b.min : Rat) * b.factor ^ i)

/-- The retryable-code list the monitor passes to `Retry`:
only `codes.Unavailable`. -/
def monitorRetryCodes : List Code := [Code.unavailable]

/-- Modelled from the spec: `internal/backoff`'s `Retry(ctx, f,
retryCodes...)` (not among the provided sources) calls `f`; on success
it returns, and on an error whose code is in `retryCodes` it sleeps and
retries until the context deadline expires, at which point the error is
surfaced; an error of any other class is returned without retrying.
The deadline is modelled as `fuel`: the number of retries the deadline
still allows.  `f` is indexed by the attempt number, and the second
component of the result counts the attempts made. -/
def retryLoop {α : Type} (retryable : List Code) (f : Nat → Except Code α) :
    Nat → Nat → Except Code α × Nat
  | fuel, i =>
    match f i with
    | .ok a => (.ok a, i + 1)
    | .error c =>
      if c ∈ retryable then
        match fuel with
        | 0 => (.error c, i + 1)
        | fuel' + 1 => retryLoop retryable f fuel' (i + 1)
      else (.error c, i + 1)

/-- The monitor's retry loop around `GetDirectory`:
`b.Retry(cctx, f, codes.Unavailable)`. -/
def monitorRetry {α : Type} (fuel : Nat) (f : Nat → Except Code α) :
    Except Code α × Nat :=
  retryLoop monitorRetryCodes f fuel 0

/-! ## `transportCreds` in the monitor

`transportCreds` splits the `kt-url` into host and port with
`net.SplitHostPort`, propagating its error; with `--insecure` it
returns TLS credentials that skip certificate verification, otherwise
certificate-verifying client TLS credentials for the extracted host.
`splitHostPort` below models Go's `net.SplitHostPort`. -/

/-- Index of the last occurrence of `c` (Go `last(s, b)`). -/
def lastIdxOf (c : Char) (cs : List Char) : Option Nat :=
  (List.findIdx? (· = c) cs.reverse).map (fun i => cs.length - 1 - i)

/-- Go `net.SplitHostPort(hostport)`, returning `(host, port)` or the
`AddrError` reason. -/
def splitHostPort (hostport : String) : Except String (String × String) :=
  let cs := hostport.toList
  match lastIdxOf ':' cs with
  | none => .error "missing port in address"
  | some i =>
    match cs with
    | '[' :: _ =>
      match List.findIdx? (· = ']') cs with
      | none => .error "missing ']' in address"
      | some endi =>
        if endi + 1 = cs.length then .error "missing port in address"
        else if endi + 1 = i then
          if ((cs.drop 1).contains '[') then .error "unexpected '[' in address"
          else if ((cs.drop (endi + 1)).contains ']') then .error "unexpected ']' in address"
          else .ok (String.mk ((cs.drop 1).take (endi - 1)), String.mk (cs.drop (i + 1)))
        else if cs.get? (endi + 1) = some ':' then .error "too many colons in address"
        else .error "missing port in address"
    | _ =>
      if ((cs.take i).contains ':') then .error "too many colons in address"
      else if (cs.contains '[') then .error "unexpected '[' in address"
      else if (cs.contains ']') then .error "unexpected ']' in address"
      else .ok (String.mk (cs.take i), String.mk (cs.drop (i + 1)))

/-- The two kinds of credentials `transportCreds` can build:
`credentials.NewTLS(&tls.Config{InsecureSkipVerify: true})` and
`credentials.NewClientTLSFromCert(nil, host)`. -/
inductive TransportCredentials where
  | tlsSkipVerify
  | clientTLS (host : String)
deriving DecidableEq, Repr

/-- The function `transportCreds(ktURL, insecure)` from the monitor's `main.go`. -/
def transportCreds (ktURL : String) (insecure : Bool) :
    Except String TransportCredentials :=
  match splitHostPort ktURL with
  | .error e => .error e
  | .ok (host, _) =>
    if insecure then .ok .tlsSkipVerify
    else .ok (.clientTLS host)

/-! ## Canonical decimal rendering

Used to state that every signed-64-bit value, written in its canonical
decimal form, is accepted by the gateway's epoch parsing. -/

/-- The character for a decimal digit (`d < 10`). -/
def digitChar (d : Nat) : Char :=
  match d with
  | 0 => '0' | 1 => '1' | 2 => '2' | 3 => '3' | 4 => '4'
  | 5 => '5' | 6 => '6' | 7 => '7' | 8 => '8' | _ => '9'

/-- The decimal digits of `n`, most significant first. -/
def decDigits (n : Nat) : List Char :=
  if n < 10 then [digitChar n]
  else decDigits (n / 10) ++ [digitChar (n % 10)]
termination_by n
decreasing_by exact Nat.div_lt_self (by omega) (by omega)

/-- Number of decimal digits of `n`. -/
def numDigits (n : Nat) : Nat :=
  if n < 10 then 1 else numDigits (n / 10) + 1
termination_by n
decreasing_by exact Nat.div_lt_self (by omega) (by omega)

/-- Canonical decimal rendering of an integer. -/
def int64Dec (v : Int) : String :=
  if v < 0 then String.mk ('-' :: decDigits v.natAbs)
  else String.mk (decDigits v.natAbs)

/-! ## Lemmas about the pattern-matching virtual machine -/

/-- A successful run only ever appends to the capture accumulator. -/
theorem runOps_some_append (pool comps : List String) :
    ∀ (ops : List (Nat × Nat)) (pos : Nat) (stack : List String)
      (captured b : List (String × String)),
      runOps pool comps ops pos stack captured = some b →
      ∃ t, b = captured ++ t := by
  intro ops
  induction ops with
  | nil =>
    intro pos stack captured b h
    simp only [runOps] at h
    split at h
    · exact absurd h (by simp)
    · exact ⟨[], by simpa using h.symm⟩
  | cons op rest ih =>
    intro pos stack captured b h
    obtain ⟨code, x⟩ := op
    simp only [runOps] at h
    split at h
    · exact ih _ _ _ _ h
    · split at h
      · split at h
        · exact absurd h (by simp)
        · split at h
          · exact absurd h (by simp)
          · exact ih _ _ _ _ h
      · split at h
        · exact ih _ _ _ _ h
        · split at h
          · exact ih _ _ _ _ h
          · split at h
            · split at h
              · exact absurd h (by simp)
              · rename_i top stackRest
                obtain ⟨t, ht⟩ := ih _ _ _ _ h
                exact ⟨(pool.getD x "", top) :: t, by rw [ht, List.append_assoc]; rfl⟩
            · exact absurd h (by simp)

/-- Stepping over an `OpLitPush` (code 2): the component at the cursor
must equal the pool literal. -/
theorem runOps_litPush (pool comps : List String) (rest : List (Nat × Nat))
    (pos : Nat) (stack : List String) (captured b : List (String × String))
    (x : Nat) (lit : String) (hx : pool[x]? = some lit)
    (h : runOps pool comps ((2, x) :: rest) pos stack captured = some b) :
    comps[pos]? = some lit ∧
      runOps pool comps rest (pos + 1) (lit :: stack) captured = some b := by
  simp only [runOps] at h
  norm_num at h
  cases hc : comps[pos]? with
  | none => rw [hc] at h; exact absurd h (by simp)
  | some c =>
    rw [hc, hx] at h
    by_cases hcl : lit = c
    · subst hcl
      simp at h
      exact ⟨rfl, h⟩
    · simp at h
      exact absurd h.1 hcl

/-- Stepping over `OpPush; OpConcatN 1; OpCapture x` (codes 1, 4, 5):
the component at the cursor is captured under the name `pool[x]`. -/
theorem runOps_pushCapture (pool comps : List String) (rest : List (Nat × Nat))
    (pos : Nat) (stack : List String) (captured b : List (String × String))
    (x : Nat)
    (h : runOps pool comps ((1, 0) :: (4, 1) :: (5, x) :: rest) pos stack captured = some b) :
    ∃ c, comps[pos]? = some c ∧
      runOps pool comps rest (pos + 1) stack
        (captured ++ [(pool.getD x "", c)]) = some b := by
  simp only [runOps] at h
  norm_num at h
  cases hc : comps[pos]? with
  | none => rw [hc] at h; exact absurd h (by simp)
  | some c =>
    rw [hc] at h
    refine ⟨c, rfl, ?_⟩
    simpa [String.intercalate, List.getD] using h

/-- All nine gateway patterns share the op prefix
`LitPush "v1"; LitPush "domains"; Push; ConcatN 1; Capture "domain_id"`:
any successful match therefore starts with components `v1`, `domains`
and binds `domain_id` to the third component. -/
theorem runOps_rooted (pool comps : List String) (rest : List (Nat × Nat))
    (b : List (String × String))
    (h0 : pool[0]? = some "v1") (h1 : pool[1]? = some "domains")
    (h2 : pool.getD 2 "" = "domain_id")
    (h : runOps pool comps
      ((2, 0) :: (2, 1) :: (1, 0) :: (4, 1) :: (5, 2) :: rest) 0 [] [] = some b) :
    comps[0]? = some "v1" ∧ comps[1]? = some "domains" ∧
      ∃ v, comps[2]? = some v ∧ lookupParam "domain_id" b = some v := by
  obtain ⟨hc0, h⟩ := runOps_litPush _ _ _ _ _ _ _ _ _ h0 h
  obtain ⟨hc1, h⟩ := runOps_litPush _ _ _ _ _ _ _ _ _ h1 h
  obtain ⟨v, hc2, h⟩ := runOps_pushCapture _ _ _ _ _ _ _ _ h
  rw [h2] at h
  obtain ⟨t, rfl⟩ := runOps_some_append _ _ _ _ _ _ _ h
  refine ⟨hc0, hc1, v, hc2, ?_⟩
  simp [lookupParam]

/-- C1 (amended): every HTTP/JSON route registered by the gateway is
rooted at `/v1/domains/{domain_id}/...` — any path a registered
pattern matches starts with components `v1`, `domains`, and the third
component is bound to the path parameter named `domain_id` — and the
directory-metadata endpoint (`GetDomain`) is served at
`GET /v1/domains/{id}`. -/
theorem getDomain_routes_rooted_at_domains :
    (∀ r ∈ registeredRoutes, ∀ (comps : List String) (verb : String)
        (b : List (String × String)),
        patMatch r.pat comps verb = some b →
        comps[0]? = some "v1" ∧ comps[1]? = some "domains" ∧
          ∃ v, comps[2]? = some v ∧ lookupParam "domain_id" b = some v) ∧
    (∃ r ∈ registeredRoutes, r.name = "GetDomain" ∧ r.method = "GET" ∧
        ∀ id, patMatch r.pat ["v1", "domains", id] "" = some [("domain_id", id)]) := by
  constructor
  · intro r hr comps verb b h
    simp only [registeredRoutes, List.mem_cons, List.not_mem_nil, or_false] at hr
    rcases hr with rfl | rfl | rfl | rfl | rfl | rfl | rfl | rfl | rfl <;>
    · rw [patMatch] at h
      split at h
      · simp only [pairOps] at h
        exact runOps_rooted _ _ _ _ (by rfl) (by rfl) (by rfl) h
      · exact absurd h (by simp)
  · refine ⟨⟨"GetDomain", "GET", pattern_KeyTransparency_GetDomain_0⟩,
      by simp [registeredRoutes], rfl, rfl, ?_⟩
    intro id
    rfl

/-- C1 counterexample: no registered route matches
`GET /v1/directories/d` — the routes are rooted at `/v1/domains/`, not
`/v1/directories/`, and the path parameter is named `domain_id`, not
`directory_id`. -/
theorem getDomain_directories_not_served :
    (registeredRoutes.all
      fun r => (patMatch r.pat ["v1", "directories", "d"] "").isNone) = true ∧
    patMatch pattern_KeyTransparency_GetDomain_0 ["v1", "domains", "d"] "" =
      some [("domain_id", "d")] := by
  exact ⟨by decide, by decide⟩

/-- Witness for the amended C1 theorem at a concrete route and path. -/
theorem getDomain_routes_rooted_witness :
    (["v1", "domains", "d7"] : List String)[0]? = some "v1" ∧
      (["v1", "domains", "d7"] : List String)[1]? = some "domains" ∧
      ∃ v, (["v1", "domains", "d7"] : List String)[2]? = some v ∧
        lookupParam "domain_id" [("domain_id", "d7")] = some v :=
  getDomain_routes_rooted_at_domains.1
    ⟨"GetDomain", "GET", pattern_KeyTransparency_GetDomain_0⟩
    (by simp [registeredRoutes]) ["v1", "domains", "d7"] "" [("domain_id", "d7")] rfl

/-- C2 (amended): `RegisterKeyTransparencyHandlerClient` registers an
HTTP handler for exactly nine endpoints, named `GetDomain` (not
`GetDirectory`), `GetEpoch`, `GetLatestEpoch`, `GetEpochStream`,
`ListMutations`, `ListMutationsStream`, `GetEntry`, `ListEntryHistory`
and `UpdateEntry`, each forwarding to the client method of the same
name. -/
theorem registeredRoutes_nine_endpoints :
    registeredRoutes.map (fun r => (r.name, r.method)) =
      [("GetDomain", "GET"), ("GetEpoch", "GET"), ("GetLatestEpoch", "GET"),
       ("GetEpochStream", "GET"), ("ListMutations", "GET"),
       ("ListMutationsStream", "GET"), ("GetEntry", "GET"),
       ("ListEntryHistory", "GET"), ("UpdateEntry", "PUT")] := by
  rfl

/-- C2 counterexample: the gateway registers no handler named
`GetDirectory`; the directory-metadata endpoint is named `GetDomain`. -/
theorem registeredRoutes_no_getDirectory :
    ((registeredRoutes.map Route.name).contains "GetDirectory") = false ∧
      ((registeredRoutes.map Route.name).contains "GetDomain") = true ∧
      registeredRoutes.length = 9 := by
  exact ⟨by decide, by decide, by decide⟩

/-- One-step unfolding of `retryLoop`. -/
theorem retryLoop_step {α : Type} (r : List Code) (f : Nat → Except Code α)
    (fuel i : Nat) :
    retryLoop r f fuel i =
      match f i with
      | .ok a => (.ok a, i + 1)
      | .error c =>
        if c ∈ r then
          match fuel with
          | 0 => (.error c, i + 1)
          | fuel' + 1 => retryLoop r f fuel' (i + 1)
        else (.error c, i + 1) := by
  rw [retryLoop]

/-- The attempt counter of `retryLoop` counts at least the attempt it
was entered on. -/
theorem retryLoop_snd_ge {α : Type} (retryable : List Code)
    (f : Nat → Except Code α) :
    ∀ (fuel i : Nat), i + 1 ≤ (retryLoop retryable f fuel i).2 := by
  intro fuel
  induction fuel with
  | zero =>
    intro i
    rw [retryLoop_step]
    cases f i with
    | ok a => simp
    | error c =>
      by_cases hc : c ∈ retryable <;> simp [hc]
  | succ fuel ih =>
    intro i
    rw [retryLoop_step]
    cases f i with
    | ok a => simp
    | error c =>
      by_cases hc : c ∈ retryable
      · simp only [hc, if_true]
        exact le_trans (by omega) (ih (i + 1))
      · simp [hc]

/-- C3 (amended): the monitor's retry loop around its initial
`GetDirectory` call retries only errors of class `UNAVAILABLE` (the
sole code passed to `Retry` in `main.go`); an error of any other
class — including `DEADLINE`, `CONFLICT`/aborted, and
signature-verification failures — is returned after a single attempt,
without retrying.  An `UNAVAILABLE` error is retried: with retry
budget remaining, at least a second attempt is made. -/
theorem monitorRetry_only_unavailable :
    (∀ (c : Code), c ≠ Code.unavailable →
      ∀ (α : Type) (f : Nat → Except Code α) (fuel : Nat),
        f 0 = .error c → monitorRetry fuel f = (.error c, 1)) ∧
    (∀ (α : Type) (f : Nat → Except Code α) (fuel : Nat),
        f 0 = .error Code.unavailable →
        2 ≤ (monitorRetry (fuel + 1) f).2) := by
  constructor
  · intro c hc α f fuel h
    have hmem : c ∉ monitorRetryCodes := by
      simp [monitorRetryCodes, hc]
    rw [monitorRetry, retryLoop_step, h]
    simp [hmem]
  · intro α f fuel h
    rw [monitorRetry, retryLoop_step, h]
    have hmem : Code.unavailable ∈ monitorRetryCodes := by
      simp [monitorRetryCodes]
    simp only [hmem, if_true]
    exact retryLoop_snd_ge _ _ _ _

/-- C3 counterexample: a `DEADLINE` (or `CONFLICT`-class) error is not
retried by the monitor's loop — with budget for five retries the loop
makes exactly one attempt — while an `UNAVAILABLE` error is retried
until the budget is exhausted. -/
theorem monitorRetry_deadline_not_retried :
    monitorRetry 5 (fun _ => (Except.error Code.deadlineExceeded : Except Code Unit)) =
      (.error Code.deadlineExceeded, 1) ∧
    monitorRetry 5 (fun _ => (Except.error Code.aborted : Except Code Unit)) =
      (.error Code.aborted, 1) ∧
    monitorRetry 5 (fun _ => (Except.error Code.unavailable : Except Code Unit)) =
      (.error Code.unavailable, 6) := by
  exact ⟨rfl, rfl, rfl⟩

/-- Witness for the amended C3 theorem: a non-retryable class
(`internal`, the class of signature-verification failures) is surfaced
after one attempt. -/
theorem monitorRetry_only_unavailable_witness :
    monitorRetry 7 (fun _ => (Except.error Code.internal : Except Code Unit)) =
      (.error Code.internal, 1) :=
  monitorRetry_only_unavailable.1 Code.internal (by decide) Unit
    (fun _ => .error Code.internal) 7 rfl

/-- When every attempt fails with a retryable code, the loop runs until
the deadline budget is exhausted and then surfaces the error, having
made exactly `fuel + 1` attempts. -/
theorem retryLoop_const_error {α : Type} (r : List Code)
    (f : Nat → Except Code α) (c : Code) (hc : c ∈ r)
    (hf : ∀ j, f j = .error c) :
    ∀ (fuel i : Nat), retryLoop r f fuel i = (.error c, i + fuel + 1) := by
  intro fuel
  induction fuel with
  | zero =>
    intro i
    rw [retryLoop_step, hf i]
    simp [hc]
  | succ fuel ih =>
    intro i
    rw [retryLoop_step, hf i]
    simp only [hc, if_true]
    rw [ih (i + 1)]
    congr 1
    omega

/-- C4: the monitor's backoff is exponential with base delay exactly
`time.Millisecond` (10^6 ns), factor exactly 1.5 and cap exactly
`time.Second` (10^9 ns), the delay before retry `i` being
`min(1 s, 1 ms * 1.5^i)` and never exceeding the 1-second cap; and
retrying stops when the per-operation deadline expires: with a deadline
budget of `fuel` retries, a persistently transient error is surfaced
after exactly `fuel + 1` attempts. -/
theorem monitorBackoff_parameters :
    monitorBackoff.min = 1000000 ∧
    monitorBackoff.max = 1000000000 ∧
    monitorBackoff.factor = 3 / 2 ∧
    (∀ i, monitorBackoff.delay i =
      Min.min (1000000000 : Rat) (1000000 * (3 / 2) ^ i)) ∧
    (∀ i, monitorBackoff.delay i ≤ 1000000000) ∧
    (∀ (α : Type) (f : Nat → Except Code α),
      (∀ j, f j = .error Code.unavailable) →
      ∀ fuel, monitorRetry fuel f = (.error Code.unavailable, fuel + 1)) := by
  refine ⟨rfl, rfl, rfl, fun i => rfl, fun i => ?_, fun α f hf fuel => ?_⟩
  · calc monitorBackoff.delay i ≤ (monitorBackoff.max : Rat) := min_le_left _ _
    _ = 1000000000 := by norm_num [monitorBackoff]
  · rw [monitorRetry,
      retryLoop_const_error monitorRetryCodes f Code.unavailable
        (by simp [monitorRetryCodes]) hf fuel 0]
    congr 1
    omega

/-- Witness for C4: with budget for two retries, a persistently
unavailable backend yields exactly three attempts before the error is
surfaced. -/
theorem monitorBackoff_parameters_witness :
    monitorRetry 2 (fun _ => (Except.error Code.unavailable : Except Code Unit)) =
      (.error Code.unavailable, 3) :=
  monitorBackoff_parameters.2.2.2.2.2 Unit
    (fun _ => .error Code.unavailable) (fun _ => rfl) 2

/-- C5: an `EntryUpdate` is submitted via `PUT` on the per-user path
`/v1/domains/{domain_id}/apps/{app_id}/users/{user_id}`; the gateway
decodes the request body into the `EntryUpdate` field of the
`UpdateEntryRequest`, and a body that fails to decode yields an
`INVALID_ARGUMENT` error without invoking the backend `UpdateEntry`
call. -/
theorem updateEntry_put_body_decode :
    (∃ r ∈ registeredRoutes, r.name = "UpdateEntry" ∧ r.method = "PUT" ∧
      ∀ d a u, patMatch r.pat ["v1", "domains", d, "apps", a, "users", u] "" =
        some [("domain_id", d), ("app_id", a), ("user_id", u)]) ∧
    (∀ (eu : EntryUpdate) (pp : List (String × String)) (d a u : String),
      lookupParam "domain_id" pp = some d →
      lookupParam "app_id" pp = some a →
      lookupParam "user_id" pp = some u →
      request_KeyTransparency_UpdateEntry_0 (.ok eu) pp none =
        .ok ⟨d, a, u, eu⟩) ∧
    (∀ (e : String) (pp : List (String × String)) (qe : Option String),
      request_KeyTransparency_UpdateEntry_0 (.error e) pp qe =
        .error ⟨.invalidArgument, e⟩ ∧
      callsBackend (request_KeyTransparency_UpdateEntry_0 (.error e) pp qe) =
        false) := by
  refine ⟨⟨⟨"UpdateEntry", "PUT", pattern_KeyTransparency_UpdateEntry_0⟩,
      by simp [registeredRoutes], rfl, rfl, fun d a u => rfl⟩,
    fun eu pp d a u hd ha hu => ?_, fun e pp qe => ⟨rfl, rfl⟩⟩
  simp only [request_KeyTransparency_UpdateEntry_0, hd, ha, hu, Runtime.string]

/-- Witness for C5 at a concrete body and parameter map. -/
theorem updateEntry_put_body_decode_witness :
    request_KeyTransparency_UpdateEntry_0 (.ok ⟨"payload"⟩)
      [("domain_id", "d"), ("app_id", "a"), ("user_id", "u")] none =
      .ok ⟨"d", "a", "u", ⟨"payload"⟩⟩ :=
  updateEntry_put_body_decode.2.1 ⟨"payload"⟩
    [("domain_id", "d"), ("app_id", "a"), ("user_id", "u")] "d" "a" "u"
    rfl rfl rfl

/-- C6: a required path parameter that is missing, or whose value fails
type conversion, yields an `INVALID_ARGUMENT` status carrying a
machine-readable code and a human-readable message, and the request is
not forwarded to the backend client (shown for `GetEntry` and
`GetEpoch`, the cited handlers). -/
theorem gateway_invalid_argument_on_bad_path_params :
    (∀ (pp : List (String × String)) (qe : Option String),
      lookupParam "domain_id" pp = none →
      request_KeyTransparency_GetEntry_0 pp qe =
        .error ⟨.invalidArgument, "missing parameter domain_id"⟩ ∧
      callsBackend (request_KeyTransparency_GetEntry_0 pp qe) = false) ∧
    (∀ (pp : List (String × String)) (qe : Option String) (d : String),
      lookupParam "domain_id" pp = some d →
      lookupParam "app_id" pp = none →
      request_KeyTransparency_GetEntry_0 pp qe =
        .error ⟨.invalidArgument, "missing parameter app_id"⟩ ∧
      callsBackend (request_KeyTransparency_GetEntry_0 pp qe) = false) ∧
    (∀ (pp : List (String × String)) (qe : Option String) (d a : String),
      lookupParam "domain_id" pp = some d →
      lookupParam "app_id" pp = some a →
      lookupParam "user_id" pp = none →
      request_KeyTransparency_GetEntry_0 pp qe =
        .error ⟨.invalidArgument, "missing parameter user_id"⟩ ∧
      callsBackend (request_KeyTransparency_GetEntry_0 pp qe) = false) ∧
    (∀ (pp : List (String × String)) (qe : Option String),
      lookupParam "domain_id" pp = none →
      request_KeyTransparency_GetEpoch_0 pp qe =
        .error ⟨.invalidArgument, "missing parameter domain_id"⟩ ∧
      callsBackend (request_KeyTransparency_GetEpoch_0 pp qe) = false) ∧
    (∀ (pp : List (String × String)) (qe : Option String) (d : String),
      lookupParam "domain_id" pp = some d →
      lookupParam "epoch" pp = none →
      request_KeyTransparency_GetEpoch_0 pp qe =
        .error ⟨.invalidArgument, "missing parameter epoch"⟩ ∧
      callsBackend (request_KeyTransparency_GetEpoch_0 pp qe) = false) ∧
    (∀ (pp : List (String × String)) (qe : Option String) (d s : String)
        (e : NumErr),
      lookupParam "domain_id" pp = some d →
      lookupParam "epoch" pp = some s →
      Runtime.int64 s = .error e →
      request_KeyTransparency_GetEpoch_0 pp qe =
        .error (typeMismatch "epoch" e.render) ∧
      (typeMismatch "epoch" e.render).code = .invalidArgument ∧
      (typeMismatch "epoch" e.render).msg ≠ "" ∧
      callsBackend (request_KeyTransparency_GetEpoch_0 pp qe) = false) := by
  refine ⟨fun pp qe hd => ?_, fun pp qe d hd ha => ?_,
    fun pp qe d a hd ha hu => ?_, fun pp qe hd => ?_,
    fun pp qe d hd he => ?_, fun pp qe d s e hd he hp => ?_⟩
  · simp only [request_KeyTransparency_GetEntry_0, hd]
    exact ⟨rfl, rfl⟩
  · simp only [request_KeyTransparency_GetEntry_0, hd, Runtime.string, ha]
    exact ⟨rfl, rfl⟩
  · simp only [request_KeyTransparency_GetEntry_0, hd, ha, hu, Runtime.string]
    exact ⟨rfl, rfl⟩
  · simp only [request_KeyTransparency_GetEpoch_0, hd]
    exact ⟨rfl, rfl⟩
  · simp only [request_KeyTransparency_GetEpoch_0, hd, Runtime.string, he]
    exact ⟨rfl, rfl⟩
  · have hp' : parseInt64 s = .error e := hp
    have hreq : request_KeyTransparency_GetEpoch_0 pp qe =
        .error (typeMismatch "epoch" e.render) := by
      simp only [request_KeyTransparency_GetEpoch_0, hd, Runtime.string, he,
        Runtime.int64, hp']
    refine ⟨hreq, rfl, ?_, by rw [hreq]; rfl⟩
    cases e <;> decide

/-- Witness for C6 at concrete parameter maps: a missing `domain_id`
and a non-integer `epoch` both yield `INVALID_ARGUMENT` without a
backend call. -/
theorem gateway_invalid_argument_witness :
    (request_KeyTransparency_GetEntry_0 [("app_id", "a")] none =
        .error ⟨.invalidArgument, "missing parameter domain_id"⟩ ∧
      callsBackend (request_KeyTransparency_GetEntry_0 [("app_id", "a")] none) =
        false) ∧
    (request_KeyTransparency_GetEpoch_0
        [("domain_id", "d"), ("epoch", "abc")] none =
        .error (typeMismatch "epoch" NumErr.syntaxError.render) ∧
      (typeMismatch "epoch" NumErr.syntaxError.render).code =
        .invalidArgument ∧
      (typeMismatch "epoch" NumErr.syntaxError.render).msg ≠ "" ∧
      callsBackend (request_KeyTransparency_GetEpoch_0
        [("domain_id", "d"), ("epoch", "abc")] none) = false) :=
  ⟨gateway_invalid_argument_on_bad_path_params.1 [("app_id", "a")] none rfl,
    gateway_invalid_argument_on_bad_path_params.2.2.2.2.2
      [("domain_id", "d"), ("epoch", "abc")] none "d" "abc"
      NumErr.syntaxError rfl rfl rfl⟩

/-- C7 (amended): a `GetEntry` lookup is keyed by exactly the triple
`(domain_id, app_id, user_id)` — the gateway populates precisely the
fields `DomainId`, `AppId`, `UserId` from those three path parameters,
checks them in that order, and accepts the request only when all three
are present. -/
theorem getEntry_keyed_by_triple :
    (∀ (pp : List (String × String)) (d a u : String),
      lookupParam "domain_id" pp = some d →
      lookupParam "app_id" pp = some a →
      lookupParam "user_id" pp = some u →
      request_KeyTransparency_GetEntry_0 pp none = .ok ⟨d, a, u⟩) ∧
    (∀ (pp : List (String × String)) (qe : Option String),
      lookupParam "domain_id" pp = none →
      request_KeyTransparency_GetEntry_0 pp qe =
        .error (missingParam "domain_id")) ∧
    (∀ (pp : List (String × String)) (qe : Option String) (d : String),
      lookupParam "domain_id" pp = some d →
      lookupParam "app_id" pp = none →
      request_KeyTransparency_GetEntry_0 pp qe =
        .error (missingParam "app_id")) ∧
    (∀ (pp : List (String × String)) (qe : Option String) (d a : String),
      lookupParam "domain_id" pp = some d →
      lookupParam "app_id" pp = some a →
      lookupParam "user_id" pp = none →
      request_KeyTransparency_GetEntry_0 pp qe =
        .error (missingParam "user_id")) := by
  refine ⟨fun pp d a u hd ha hu => ?_, fun pp qe hd => ?_,
    fun pp qe d hd ha => ?_, fun pp qe d a hd ha hu => ?_⟩
  · simp only [request_KeyTransparency_GetEntry_0, hd, ha, hu, Runtime.string]
  · simp only [request_KeyTransparency_GetEntry_0, hd]
  · simp only [request_KeyTransparency_GetEntry_0, hd, Runtime.string, ha]
  · simp only [request_KeyTransparency_GetEntry_0, hd, ha, hu, Runtime.string]

/-- C7 counterexample: the first component of the triple is the path
parameter `domain_id`, not `directory_id` — a parameter map carrying
`directory_id` is rejected as missing `domain_id`, while the same map
keyed by `domain_id` is accepted. -/
theorem getEntry_directory_id_not_the_key :
    request_KeyTransparency_GetEntry_0
      [("directory_id", "d"), ("app_id", "a"), ("user_id", "u")] none =
      .error ⟨.invalidArgument, "missing parameter domain_id"⟩ ∧
    request_KeyTransparency_GetEntry_0
      [("domain_id", "d"), ("app_id", "a"), ("user_id", "u")] none =
      .ok ⟨"d", "a", "u"⟩ :=
  ⟨rfl, rfl⟩

/-- Witness for the amended C7 theorem at a concrete parameter map. -/
theorem getEntry_keyed_by_triple_witness :
    request_KeyTransparency_GetEntry_0
      [("domain_id", "dom"), ("app_id", "app"), ("user_id", "usr")] none =
      .ok ⟨"dom", "app", "usr"⟩ :=
  getEntry_keyed_by_triple.1
    [("domain_id", "dom"), ("app_id", "app"), ("user_id", "usr")]
    "dom" "app" "usr" rfl rfl rfl

/-- C9: `transportCreds` propagates the host/port-splitting error for
every `kt-url` that is not of the form `host:port`, returning no
credentials; when the split succeeds it returns
verification-skipping TLS credentials if `insecure` is set, and
otherwise certificate-verifying client TLS credentials for the
extracted host. -/
theorem transportCreds_split_and_modes :
    (∀ (url : String) (insecure : Bool) (e : String),
      splitHostPort url = .error e →
      transportCreds url insecure = .error e) ∧
    (∀ (url host port : String),
      splitHostPort url = .ok (host, port) →
      transportCreds url true = .ok .tlsSkipVerify) ∧
    (∀ (url host port : String),
      splitHostPort url = .ok (host, port) →
      transportCreds url false = .ok (.clientTLS host)) := by
  refine ⟨fun url insecure e h => ?_, fun url host port h => ?_,
    fun url host port h => ?_⟩
  · simp only [transportCreds, h]
  · simp only [transportCreds, h, if_true]
  · simp only [transportCreds, h]
    rfl

/-- Witness for C9 at concrete URLs: a URL without a port is rejected
with the split error, and `localhost:443` yields the two credential
modes. -/
theorem transportCreds_split_witness :
    transportCreds "localhost" false = .error "missing port in address" ∧
    transportCreds "localhost:443" true = .ok .tlsSkipVerify ∧
    transportCreds "localhost:443" false = .ok (.clientTLS "localhost") :=
  ⟨transportCreds_split_and_modes.1 "localhost" false
      "missing port in address" (by rfl),
    transportCreds_split_and_modes.2.1 "localhost:443" "localhost" "443"
      (by rfl),
    transportCreds_split_and_modes.2.2 "localhost:443" "localhost" "443"
      (by rfl)⟩

/-- C10: if the dial succeeds but handler registration returns an
error, `RegisterKeyTransparencyHandlerFromEndpoint`'s deferred cleanup
closes the dialed connection before the function returns — the error
is surfaced and no open connection is leaked; on success the
connection stays open and the ctx-done closer goroutine is
installed. -/
theorem registerFromEndpoint_closes_on_error :
    (∀ e : String,
      RegisterKeyTransparencyHandlerFromEndpoint (.ok ()) (.error e) =
        (.error e, ⟨false, false⟩)) ∧
    RegisterKeyTransparencyHandlerFromEndpoint (.ok ()) (.ok ()) =
      (.ok (), ⟨true, true⟩) :=
  ⟨fun _ => rfl, rfl⟩

/-- Witness for C10 at a concrete registration error. -/
theorem registerFromEndpoint_closes_on_error_witness :
    RegisterKeyTransparencyHandlerFromEndpoint (.ok ())
      (.error "registration failed") =
      (.error "registration failed", ⟨false, false⟩) :=
  registerFromEndpoint_closes_on_error.1 "registration failed"

/-! ## Lemmas about `parseInt64` and the canonical decimal form -/

theorem digitVal_digitChar (d : Nat) (hd : d < 10) :
    digitVal (digitChar d) = some d := by
  interval_cases d <;> rfl

theorem digitChar_ne_underscore (d : Nat) (hd : d < 10) :
    digitChar d ≠ '_' := by
  interval_cases d <;> decide

theorem digitChar_ne_plus (d : Nat) (hd : d < 10) : digitChar d ≠ '+' := by
  interval_cases d <;> decide

theorem digitChar_ne_minus (d : Nat) (hd : d < 10) : digitChar d ≠ '-' := by
  interval_cases d <;> decide

theorem digitChar_ne_zero (d : Nat) (h0 : 0 < d) (hd : d < 10) :
    digitChar d ≠ '0' := by
  interval_cases d <;> decide

theorem decDigits_length (m : Nat) : (decDigits m).length = numDigits m := by
  induction m using Nat.strong_induction_on with
  | _ m ih =>
    rw [decDigits, numDigits]
    by_cases hm : m < 10
    · simp [hm]
    · simp only [hm, if_false]
      rw [List.length_append]
      rw [ih (m / 10) (Nat.div_lt_self (by omega) (by omega))]
      simp

theorem decDigits_head (m : Nat) (hm : 0 < m) :
    ∃ d rest, decDigits m = digitChar d :: rest ∧ 0 < d ∧ d < 10 := by
  induction m using Nat.strong_induction_on with
  | _ m ih =>
    rw [decDigits]
    by_cases h10 : m < 10
    · exact ⟨m, [], by simp [h10], hm, h10⟩
    · obtain ⟨d, rest, hd, h0, h9⟩ :=
        ih (m / 10) (Nat.div_lt_self (by omega) (by omega))
          (by
            have := Nat.div_le_div_right (c := 10) (Nat.le_of_not_lt h10)
            omega)
      exact ⟨d, rest ++ [digitChar (m % 10)], by simp [h10, hd], h0, h9⟩

/-- The digit loop processes a concatenation left to right: if the
first part completes without error, the loop continues into the second
part from the accumulated state. -/
theorem parseUintLoop_append (base cutoff maxVal : Nat) (b0 : Bool) :
    ∀ (xs ys : List Char) (n : Nat) (us : Bool) (n' : Nat) (us' : Bool),
      parseUintLoop base cutoff maxVal b0 xs n us = (n', us', none) →
      parseUintLoop base cutoff maxVal b0 (xs ++ ys) n us =
        parseUintLoop base cutoff maxVal b0 ys n' us' := by
  intro xs
  induction xs with
  | nil =>
    intro ys n us n' us' h
    simp only [parseUintLoop] at h
    obtain ⟨rfl, rfl⟩ : n = n' ∧ us = us' := by
      constructor <;> [exact congrArg Prod.fst h;
        exact congrArg (fun p => p.2.1) h]
    rfl
  | cons c rest ih =>
    intro ys n us n' us' h
    rw [List.cons_append]
    simp only [parseUintLoop] at h ⊢
    by_cases h1 : c = '_' ∧ b0 = true
    · rw [if_pos h1] at h ⊢
      exact ih _ _ _ _ _ h
    · rw [if_neg h1] at h ⊢
      revert h
      cases hd : digitVal c with
      | none =>
        intro h
        exact absurd h (by simp)
      | some d =>
        intro h
        replace h : (if base ≤ d then ((0 : Nat), us, some NumErr.syntaxError)
            else if cutoff ≤ n then (maxVal, us, some NumErr.outOfRange)
            else if maxVal < n * base + d then (maxVal, us, some NumErr.outOfRange)
            else parseUintLoop base cutoff maxVal b0 rest (n * base + d) us) =
            (n', us', none) := h
        show (if base ≤ d then ((0 : Nat), us, some NumErr.syntaxError)
            else if cutoff ≤ n then (maxVal, us, some NumErr.outOfRange)
            else if maxVal < n * base + d then (maxVal, us, some NumErr.outOfRange)
            else parseUintLoop base cutoff maxVal b0 (rest ++ ys) (n * base + d) us) =
            parseUintLoop base cutoff maxVal b0 ys n' us'
        by_cases h2 : base ≤ d
        · rw [if_pos h2] at h
          exact absurd (congrArg (fun p => p.2.2) h) (by simp)
        · rw [if_neg h2] at h ⊢
          by_cases h3 : cutoff ≤ n
          · rw [if_pos h3] at h
            exact absurd (congrArg (fun p => p.2.2) h) (by simp)
          · rw [if_neg h3] at h ⊢
            by_cases h4 : maxVal < n * base + d
            · rw [if_pos h4] at h
              exact absurd (congrArg (fun p => p.2.2) h) (by simp)
            · rw [if_neg h4] at h ⊢
              exact ih _ _ _ _ _ h

/-- One step of the digit loop on a decimal digit, in base 10. -/
theorem parseUintLoop_digit (cutoff maxVal : Nat) (d : Nat) (hd : d < 10)
    (rest : List Char) (n : Nat) (us : Bool) :
    parseUintLoop 10 cutoff maxVal true (digitChar d :: rest) n us =
      if cutoff ≤ n then (maxVal, us, some .outOfRange)
      else if maxVal < n * 10 + d then (maxVal, us, some .outOfRange)
      else parseUintLoop 10 cutoff maxVal true rest (n * 10 + d) us := by
  simp only [parseUintLoop]
  rw [if_neg (fun hcon => digitChar_ne_underscore d hd hcon.1)]
  rw [digitVal_digitChar d hd]
  show (if 10 ≤ d then ((0 : Nat), us, some NumErr.syntaxError)
      else if cutoff ≤ n then (maxVal, us, some NumErr.outOfRange)
      else if maxVal < n * 10 + d then (maxVal, us, some NumErr.outOfRange)
      else parseUintLoop 10 cutoff maxVal true rest (n * 10 + d) us) = _
  rw [if_neg (by omega)]

/-- Running the digit loop over the canonical decimal digits of `m`
accumulates exactly `m` (given the final value fits in `maxUint64`),
with no error and no underscore seen. -/
theorem parseUintLoop_decDigits :
    ∀ (m n : Nat) (us : Bool),
      n * 10 ^ numDigits m + m ≤ maxUint64 →
      parseUintLoop 10 (maxUint64 / 10 + 1) maxUint64 true (decDigits m) n us =
        (n * 10 ^ numDigits m + m, us, none) := by
  intro m
  induction m using Nat.strong_induction_on with
  | _ m ih =>
    intro n us hbound
    by_cases h10 : m < 10
    · rw [numDigits, if_pos h10, pow_one] at hbound ⊢
      rw [decDigits, if_pos h10]
      rw [parseUintLoop_digit _ _ m h10]
      have hn : n ≤ maxUint64 / 10 :=
        (Nat.le_div_iff_mul_le (by omega)).2 (by omega)
      rw [if_neg (by omega), if_neg (by omega)]
      simp only [parseUintLoop]
    · have hm0 : 0 < m := by omega
      have hdiv : m / 10 < m := Nat.div_lt_self hm0 (by omega)
      have hmod : m % 10 < 10 := Nat.mod_lt _ (by omega)
      rw [numDigits, if_neg h10] at hbound ⊢
      have hsplit : (n * 10 ^ numDigits (m / 10) + m / 10) * 10 + m % 10 =
          n * 10 ^ (numDigits (m / 10) + 1) + m := by
        have hdm := Nat.div_add_mod m 10
        calc (n * 10 ^ numDigits (m / 10) + m / 10) * 10 + m % 10
            = n * (10 ^ numDigits (m / 10) * 10) + (10 * (m / 10) + m % 10) := by
              ring
          _ = n * 10 ^ (numDigits (m / 10) + 1) + m := by
              rw [pow_succ, hdm]
      have hbound' : n * 10 ^ numDigits (m / 10) + m / 10 ≤ maxUint64 := by
        omega
      rw [decDigits, if_neg h10]
      rw [parseUintLoop_append 10 (maxUint64 / 10 + 1) maxUint64 true
        (decDigits (m / 10)) [digitChar (m % 10)] n us _ us
        (ih (m / 10) hdiv n us hbound')]
      rw [parseUintLoop_digit _ _ (m % 10) hmod]
      have hn : n * 10 ^ numDigits (m / 10) + m / 10 ≤ maxUint64 / 10 :=
        (Nat.le_div_iff_mul_le (by omega)).2 (by omega)
      rw [if_neg (by omega), if_neg (by omega)]
      simp only [parseUintLoop]
      rw [hsplit]

/-- Running `ParseUint` (base 0, 64-bit) on the canonical decimal digits of `m`
returns exactly `m` for any `m` up to `2^63`. -/
theorem parseUint64_decDigits (m : Nat) (hm : m ≤ 2 ^ 63) :
    parseUint64Base0 (decDigits m) = (m, none) := by
  by_cases hm0 : m = 0
  · subst hm0
    rw [show decDigits 0 = ['0'] from by rw [decDigits]; rfl]
    rfl
  · obtain ⟨d, rest, hs, hd0, hd10⟩ := decDigits_head m (by omega)
    have hloop : parseUintLoop 10 (maxUint64 / 10 + 1) maxUint64 true
        (digitChar d :: rest) 0 false = (m, false, none) := by
      rw [← hs]
      have hb : 0 * 10 ^ numDigits m + m ≤ maxUint64 := by
        have : m ≤ maxUint64 := le_trans hm (by norm_num [maxUint64])
        omega
      simpa using parseUintLoop_decDigits m 0 false hb
    rw [hs]
    simp only [parseUint64Base0]
    rw [if_neg (digitChar_ne_zero d hd0 hd10)]
    show (match parseUintLoop 10 (maxUint64 / 10 + 1) maxUint64 true
        (digitChar d :: rest) 0 false with
      | (n, us, err) =>
        match err with
        | some e => (n, some e)
        | none =>
          if us ∧ ¬ underscoreOK (digitChar d :: rest) then
            ((0 : Nat), some NumErr.syntaxError)
          else (n, none)) = (m, none)
    rw [hloop]
    simp

/-- The signed cutoff checks accept exactly the signed-64-bit range. -/
theorem parseInt64Post_ok_range (neg : Bool) (u : List Char) (v : Int)
    (h : parseInt64Post neg u = .ok v) :
    -(2 ^ 63) ≤ v ∧ v < 2 ^ 63 := by
  simp only [parseInt64Post] at h
  rcases hpu : parseUint64Base0 u with ⟨un, err⟩
  rw [hpu] at h
  have hchk : (if ¬ neg = true ∧ 2 ^ 63 ≤ un then (.error .outOfRange : Except NumErr Int)
      else if neg = true ∧ 2 ^ 63 < un then .error .outOfRange
      else .ok (if neg = true then -(un : Int) else (un : Int))) = .ok v := by
    cases err with
    | none => exact h
    | some e => cases e with
      | syntaxError => exact absurd h (by simp)
      | outOfRange => exact h
  split_ifs at hchk with hA hB hC
  · have hv : -(un : Int) = v := by simpa using hchk
    have hun : un ≤ 2 ^ 63 := by
      by_contra hcon
      exact hB ⟨hC, by omega⟩
    constructor <;> omega
  · have hv : (un : Int) = v := by simpa using hchk
    have hun : un < 2 ^ 63 := by
      by_contra hcon
      exact hA ⟨hC, by omega⟩
    constructor <;> omega

/-- The cutoff checks accept the canonical digits of every in-range
value. -/
theorem parseInt64Post_decDigits (neg : Bool) (m : Nat)
    (hm : if neg then m ≤ 2 ^ 63 else m < 2 ^ 63) :
    parseInt64Post neg (decDigits m) =
      .ok (if neg then -(m : Int) else (m : Int)) := by
  have hm' : m ≤ 2 ^ 63 := by
    cases neg <;> simp at hm <;> omega
  simp only [parseInt64Post]
  rw [parseUint64_decDigits m hm']
  show (if ¬ neg = true ∧ 2 ^ 63 ≤ m then (.error .outOfRange : Except NumErr Int)
      else if neg = true ∧ 2 ^ 63 < m then .error .outOfRange
      else .ok (if neg = true then -(m : Int) else (m : Int))) = _
  cases neg with
  | false =>
    simp only [Bool.false_eq_true] at hm ⊢
    rw [if_neg (by simp at hm ⊢; omega), if_neg (by simp)]
  | true =>
    simp only [if_pos rfl] at hm ⊢
    rw [if_neg (by simp), if_neg (by simp at hm ⊢; omega)]

/-- Every value `parseInt64` accepts lies in the signed-64-bit
range. -/
theorem parseInt64_ok_range (s : String) (v : Int)
    (h : parseInt64 s = .ok v) : -(2 ^ 63) ≤ v ∧ v < 2 ^ 63 := by
  simp only [parseInt64] at h
  revert h
  cases s.toList with
  | nil =>
    intro h
    exact absurd h (by simp)
  | cons c rest =>
    intro h
    replace h : (if c = '+' then parseInt64Post false rest
        else if c = '-' then parseInt64Post true rest
        else parseInt64Post false (c :: rest)) = Except.ok v := h
    split_ifs at h with h1 h2
    · exact parseInt64Post_ok_range _ _ _ h
    · exact parseInt64Post_ok_range _ _ _ h
    · exact parseInt64Post_ok_range _ _ _ h

/-- The parser `parseInt64` accepts the canonical decimal form of every
signed-64-bit value, negative values included. -/
theorem parseInt64_int64Dec (v : Int) (h1 : -(2 ^ 63) ≤ v)
    (h2 : v < 2 ^ 63) : parseInt64 (int64Dec v) = .ok v := by
  by_cases hneg : v < 0
  · have hm : v.natAbs ≤ 2 ^ 63 := by omega
    have hdec : (int64Dec v).toList = '-' :: decDigits v.natAbs := by
      rw [int64Dec, if_pos hneg]; rfl
    simp only [parseInt64]
    rw [hdec]
    show (if ('-' : Char) = '+' then parseInt64Post false (decDigits v.natAbs)
        else if ('-' : Char) = '-' then parseInt64Post true (decDigits v.natAbs)
        else parseInt64Post false ('-' :: decDigits v.natAbs)) = Except.ok v
    rw [if_neg (by decide), if_pos rfl]
    rw [parseInt64Post_decDigits true v.natAbs (by simpa using hm)]
    have hva : -((v.natAbs : Int)) = v := by omega
    show Except.ok (-((v.natAbs : Int))) = Except.ok v
    rw [hva]
  · have hv0 : 0 ≤ v := le_of_not_lt hneg
    have hm : v.natAbs < 2 ^ 63 := by omega
    have hdec : (int64Dec v).toList = decDigits v.natAbs := by
      rw [int64Dec, if_neg hneg]; rfl
    by_cases hz : v = 0
    · subst hz
      simp only [parseInt64]
      rw [hdec, show decDigits (0 : Int).natAbs = ['0'] from by
        rw [show ((0 : Int).natAbs) = 0 from rfl, decDigits]; rfl]
      rfl
    · have hmpos : 0 < v.natAbs := by omega
      obtain ⟨d, rest, hs, hd0, hd10⟩ := decDigits_head v.natAbs hmpos
      simp only [parseInt64]
      rw [hdec, hs]
      show (if digitChar d = '+' then parseInt64Post false rest
          else if digitChar d = '-' then parseInt64Post true rest
          else parseInt64Post false (digitChar d :: rest)) = Except.ok v
      rw [if_neg (digitChar_ne_plus d hd10),
        if_neg (digitChar_ne_minus d hd10), ← hs]
      rw [parseInt64Post_decDigits false v.natAbs (by simpa using hm)]
      have hva : ((v.natAbs : Int)) = v := by omega
      show Except.ok ((v.natAbs : Int)) = Except.ok v
      rw [hva]

/-- C8: the epoch path parameter of `GetEpoch`, `ListMutations` and
`ListMutationsStream` is parsed with `runtime.Int64`
(`strconv.ParseInt(val, 0, 64)`), a signed-64-bit parse: whatever it
accepts is forwarded to the backend unchanged — so every signed-64-bit
value, negative ones included (each has its canonical decimal form
accepted), reaches the backend — and only values it rejects (
non-integers, or integers outside the signed-64-bit range) are
answered with `INVALID_ARGUMENT`, despite epochs being specified as
non-negative. -/
theorem epoch_parsed_as_int64 :
    (∀ (pp : List (String × String)) (d s : String) (v : Int),
      lookupParam "domain_id" pp = some d →
      lookupParam "epoch" pp = some s →
      Runtime.int64 s = .ok v →
      request_KeyTransparency_GetEpoch_0 pp none = .ok ⟨d, v⟩ ∧
      request_KeyTransparency_ListMutations_0 pp none = .ok ⟨d, v⟩ ∧
      request_KeyTransparency_ListMutationsStream_0 pp none = .ok ⟨d, v⟩) ∧
    (∀ (s : String) (v : Int), Runtime.int64 s = .ok v →
      -(2 ^ 63) ≤ v ∧ v < 2 ^ 63) ∧
    (∀ v : Int, -(2 ^ 63) ≤ v → v < 2 ^ 63 →
      Runtime.int64 (int64Dec v) = .ok v) ∧
    (∀ (pp : List (String × String)) (qe : Option String) (d s : String)
        (e : NumErr),
      lookupParam "domain_id" pp = some d →
      lookupParam "epoch" pp = some s →
      Runtime.int64 s = .error e →
      request_KeyTransparency_GetEpoch_0 pp qe =
        .error (typeMismatch "epoch" e.render) ∧
      request_KeyTransparency_ListMutations_0 pp qe =
        .error (typeMismatch "epoch" e.render) ∧
      request_KeyTransparency_ListMutationsStream_0 pp qe =
        .error (typeMismatch "epoch" e.render)) := by
  refine ⟨fun pp d s v hd he hv => ?_, fun s v hv => ?_,
    fun v hv1 hv2 => ?_, fun pp qe d s e hd he hp => ?_⟩
  · have hv' : parseInt64 s = .ok v := hv
    refine ⟨?_, ?_, ?_⟩ <;>
      simp only [request_KeyTransparency_GetEpoch_0,
        request_KeyTransparency_ListMutations_0,
        request_KeyTransparency_ListMutationsStream_0,
        hd, he, Runtime.string, Runtime.int64, hv']
  · exact parseInt64_ok_range s v hv
  · exact parseInt64_int64Dec v hv1 hv2
  · have hp' : parseInt64 s = .error e := hp
    refine ⟨?_, ?_, ?_⟩ <;>
      simp only [request_KeyTransparency_GetEpoch_0,
        request_KeyTransparency_ListMutations_0,
        request_KeyTransparency_ListMutationsStream_0,
        hd, he, Runtime.string, Runtime.int64, hp']

/-- Witness for C8: the negative epoch `-1` is accepted and forwarded
by all three handlers. -/
theorem epoch_parsed_as_int64_witness :
    request_KeyTransparency_GetEpoch_0
      [("domain_id", "d"), ("epoch", "-1")] none = .ok ⟨"d", -1⟩ ∧
    request_KeyTransparency_ListMutations_0
      [("domain_id", "d"), ("epoch", "-1")] none = .ok ⟨"d", -1⟩ ∧
    request_KeyTransparency_ListMutationsStream_0
      [("domain_id", "d"), ("epoch", "-1")] none = .ok ⟨"d", -1⟩ :=
  epoch_parsed_as_int64.1 [("domain_id", "d"), ("epoch", "-1")]
    "d" "-1" (-1) rfl rfl (by rfl)

end KeyTransparency
